import Mathlib

/-!
Formal model of the endee RAG document question-answering pipeline
(`rag-doc-qa/app/ingestor.py`, `rag-doc-qa/app/retriever.py`,
`app/generator.py`, `app/pipeline.py`), together with theorems about
chunking, upsert batching, retrieval result formatting, retry behaviour
under rate limiting, client and model handle caching, and prompt
construction.

Python strings are modelled as `List Char` where character-level slicing
matters (chunking) and as `String` elsewhere.  Python dictionaries whose
keys may be absent are modelled as structures with `Option` fields.
The external backends (PyMuPDF, SentenceTransformer, the Endee index,
the Gemini API) are black boxes: their responses enter the model as
function or list parameters, and the calls the code makes to them are
recorded as explicit effect values.
-/

namespace EndeeRag

/-- Constant from `ingestor.py`: characters per chunk. -/
def CHUNK_SIZE : Nat := 500

/-- Constant from `ingestor.py`: overlapping characters between consecutive chunks. -/
def CHUNK_OVERLAP : Nat := 50

/-- Constant from `ingestor.py`: max vectors per upsert call. -/
def BATCH_SIZE : Nat := 500

/-- One element of the list returned by `extract_text_from_pdf`:
a dict with keys `page` and `text`. -/
structure Page where
  page : Nat
  text : List Char
deriving DecidableEq

/-- One element of the list returned by `chunk_text`:
a dict with keys `text` and `page`. -/
structure Chunk where
  text : List Char
  page : Nat
deriving DecidableEq

/-- The shared loop shape of `chunk_text`
(`while start < len(text): ... start += chunk_size - overlap`)
and of the upsert loop in `ingest_pdf`
(`for start in range(0, len(vectors), BATCH_SIZE)`):
slices of `size` elements taken at starts `0, stride, 2*stride, ...`
while the start is below `l.length`.  `fuel` bounds the number of
iterations; `l.length` iterations are enough whenever `0 < stride`. -/
def sliceLoop (l : List α) (size stride : Nat) : Nat → Nat → List (List α)
  | 0, _ => []
  | fuel + 1, start =>
    if start < l.length then
      (l.drop start).take size :: sliceLoop l size stride fuel (start + stride)
    else []

/-- All windows of `size` elements at stride `stride` over `l`, starting at 0. -/
def windows (l : List α) (size stride : Nat) : List (List α) :=
  sliceLoop l size stride l.length 0

/-- `chunk_text` applied to a single page (`ingestor.py`, the inner
`while start < len(text)` loop): windows of `chunk_size` characters at
stride `chunk_size - overlap`, each tagged with the page number.
Faithful to the source whenever `overlap < chunk_size` (positive
stride); the non-advancing `overlap >= chunk_size` regime is modelled
by `chunkStep` below. -/
def chunkPage (text : List Char) (pg cs ov : Nat) : List Chunk :=
  (windows text cs (cs - ov)).map fun w => { text := w, page := pg }

/-- `chunk_text` from `ingestor.py`: each page is chunked in turn and the
per-page chunk lists are appended in page order. -/
def chunk_text (pages : List Page) (cs ov : Nat) : List Chunk :=
  pages.flatMap fun p => chunkPage p.text p.page cs ov

/-- The `start` update of the `while` loop in `chunk_text`
(`start += chunk_size - overlap`), over the integers as in Python.
The loop guard is `start < len(text)`; the loop body contains no
`raise`, so the loop exits only when the guard becomes false. -/
def chunkStep (chunkSize overlap : Int) (start : Int) : Int :=
  start + (chunkSize - overlap)

/-- The upsert batching loop of `ingest_pdf`
(`for start in range(0, len(vectors), BATCH_SIZE): batch = vectors[start : start + BATCH_SIZE]`):
the list of batches passed to `index.upsert`, in call order. -/
def upsertBatches (vectors : List α) : List (List α) :=
  windows vectors BATCH_SIZE BATCH_SIZE

/-- One vector record prepared by `ingest_pdf` for Endee: the metadata
`{text, page, filename}`.  The freshly generated UUID and the embedding
vector are opaque to the properties proved here and are omitted. -/
structure VectorRecord where
  text : List Char
  page : Nat
  filename : String
deriving DecidableEq

/-- One backend interaction performed by `ingest_pdf`, in program order:
the batch embedding call (`model.encode`), index creation
(`_ensure_index`), and each `index.upsert(batch)` call with its batch
size. -/
inductive IngestEffect where
  | embedCall (texts : List (List Char))
  | ensureIndex
  | upsert (batchSize : Nat)
deriving DecidableEq

/-- `ingest_pdf` from `ingestor.py`, starting from the extracted `pages`
(step 1, `extract_text_from_pdf`, is the PyMuPDF black box).  Returns
the chunk count together with the ordered backend interactions. -/
def ingest_pdf (pages : List Page) (filename : String) : Nat × List IngestEffect :=
  if pages = [] then (0, [])
  else
    let chunks := chunk_text pages CHUNK_SIZE CHUNK_OVERLAP
    if chunks = [] then (0, [])
    else
      let texts := chunks.map (fun c => c.text)
      let vectors := chunks.map
        (fun c => { text := c.text, page := c.page, filename := filename : VectorRecord })
      let batches := upsertBatches vectors
      (vectors.length,
        IngestEffect.embedCall texts :: IngestEffect.ensureIndex ::
          batches.map (fun b => IngestEffect.upsert b.length))

/-- The module-level `_model` globals.  `ingestor.py` and `retriever.py`
each declare their own `_model = None` at module scope; a fresh
`SentenceTransformer` construction is modelled by handing out the next
instance identifier. -/
structure ModelState where
  ingestorModel : Option Nat
  retrieverModel : Option Nat
  nextModelId : Nat
deriving DecidableEq

/-- `_get_model` from `ingestor.py`: lazily construct and cache the
module-level `_model` of that module. -/
def ingestorGetModel (st : ModelState) : Nat × ModelState :=
  match st.ingestorModel with
  | some m => (m, st)
  | none =>
      (st.nextModelId,
        { st with ingestorModel := some st.nextModelId,
                  nextModelId := st.nextModelId + 1 })

/-- `_get_model` from `retriever.py`: lazily construct and cache the
module-level `_model` of that module. -/
def retrieverGetModel (st : ModelState) : Nat × ModelState :=
  match st.retrieverModel with
  | some m => (m, st)
  | none =>
      (st.nextModelId,
        { st with retrieverModel := some st.nextModelId,
                  nextModelId := st.nextModelId + 1 })

/-- The `meta` dict of one Endee query response item; every key may be
absent in a partially populated record. -/
structure QueryMeta where
  text : Option String
  page : Option Nat
  filename : Option String
deriving DecidableEq

/-- One item of the list returned by `index.query` in `retriever.py`;
both the `meta` dict and the `similarity` value may be absent. -/
structure QueryItem where
  meta : Option QueryMeta
  similarity : Option ℚ
deriving DecidableEq

/-- One dict of the list returned by `retrieve`:
keys `text`, `page`, `filename`, `score`, always present. -/
structure RetrievedChunk where
  text : String
  page : Nat
  filename : String
  score : ℚ
deriving DecidableEq

/-- The `{}` default of `item.get("meta", {})`. -/
def emptyMeta : QueryMeta := { text := none, page := none, filename := none }

/-- The body of the result-formatting loop in `retrieve`:
`meta = item.get("meta", {})` followed by the four `.get` calls with
defaults `""`, `0`, `""`, `0.0`. -/
def formatItem (item : QueryItem) : RetrievedChunk :=
  let meta := item.meta.getD emptyMeta
  { text := meta.text.getD "",
    page := meta.page.getD 0,
    filename := meta.filename.getD "",
    score := item.similarity.getD 0 }

/-- The result-formatting loop of `retrieve` (step 3), one output dict
appended per response item in response order. -/
def formatResults (results : List QueryItem) : List RetrievedChunk :=
  results.map formatItem

/-- `retrieve` from `retriever.py`.  The embedding of the question uses
the module's lazily cached model; the Endee `index.query` call is a
black box whose response enters as `results`. -/
def retrieve (question : String) (results : List QueryItem) (st : ModelState) :
    List RetrievedChunk × ModelState :=
  let m := retrieverGetModel st
  (formatResults results, m.2)

/-- One chunk dict as consumed by `_build_prompt` in `generator.py`:
the code reads `page`, `filename` and `text` via `.get` with defaults,
so every field may be absent. -/
structure PromptChunk where
  page : Option Nat
  filename : Option String
  text : Option String
deriving DecidableEq

/-- Rendering of `chunk.get("page", "?")` inside the f-string:
a present page number prints in decimal, an absent one as `?`. -/
def pageField : Option Nat → String
  | some p => toString p
  | none => "?"

/-- The `context_parts` loop of `_build_prompt`:
`for i, chunk in enumerate(chunks, start=1)` appending
`[Chunk i | Page p | File: f]` followed by a newline and the chunk text. -/
def contextParts : Nat → List PromptChunk → List String
  | _, [] => []
  | i, c :: rest =>
      ("[Chunk " ++ toString i ++ " | Page " ++ pageField c.page ++ " | File: " ++
          c.filename.getD "?" ++ "]\n" ++ c.text.getD "") :: contextParts (i + 1) rest

/-- The fixed instruction sentence opening every prompt built by
`_build_prompt`: it tells the model to answer ONLY from the supplied
context and to state explicitly when the answer is not available there. -/
def groundingInstruction : String :=
  "Answer the following question using ONLY the context provided below. " ++
  "If the answer cannot be found in the context, clearly state that " ++
  "the information is not available in the provided document."

/-- `_build_prompt` from `generator.py`: the numbered context blocks are
joined with blank lines (`"\n\n".join`) and spliced between the
instruction header and the question. -/
def build_prompt (question : String) (chunks : List PromptChunk) : String :=
  let contextBlock := String.intercalate "\n\n" (contextParts 1 chunks)
  groundingInstruction ++ "\n\nContext:\n" ++ contextBlock ++
    "\n\nQuestion: " ++ question ++ "\n\nAnswer:"

/-- The outcome of one `client.models.generate_content` call: either a
response with text, or a raised exception.  `has429` records whether
`"429" in str(e)` holds for the exception. -/
inductive LLMResult where
  | ok (text : String)
  | err (has429 : Bool) (msg : String)
deriving DecidableEq

/-- The retry loop of `generate_answer`
(`for attempt in range(max_retries)`): returns the final result (normal
return or raised exception), the list of back-off sleeps performed
(`time.sleep(20 * (attempt + 1))`), and the number of backend calls
made.  The backend is indexed by the attempt number. -/
def retryLoop (backend : Nat → LLMResult) (maxRetries attempt : Nat) :
    (Except (Bool × String) String) × List Nat × Nat :=
  match backend attempt with
  | .ok t => (Except.ok t, [], 1)
  | .err h429 msg =>
    if h : h429 = true ∧ attempt < maxRetries - 1 then
      let r := retryLoop backend maxRetries (attempt + 1)
      (r.1, 20 * (attempt + 1) :: r.2.1, r.2.2 + 1)
    else (Except.error (h429, msg), [], 1)
  termination_by maxRetries - attempt
  decreasing_by omega

/-- The placeholder credential rejected by `_get_client`. -/
def PLACEHOLDER_KEY : String := "your-gemini-api-key-here"

/-- Process state of `generator.py`: the `GEMINI_API_KEY` environment
value (absent key modelled as `none`) and the module-level `_client`
global; a fresh `genai.Client` construction hands out the next instance
identifier. -/
structure GenState where
  apiKey : Option String
  client : Option Nat
  nextClientId : Nat
deriving DecidableEq

/-- The credential check of `_get_client`:
`if not api_key or api_key == "your-gemini-api-key-here"`.
In Python `not api_key` is true exactly when the variable is `None`
(unset) or the empty string. -/
def keyMissing : Option String → Bool
  | none => true
  | some k => k == "" || k == PLACEHOLDER_KEY

/-- `_get_client` from `generator.py`: return the cached client if the
module-level `_client` is set; otherwise validate the credential
(raising `ValueError`, modelled as `Except.error`, when it is missing,
empty or the placeholder) and construct and cache a new client.  The
returned flag records whether a construction happened. -/
def getClient (st : GenState) : Except Unit (Nat × GenState × Bool) :=
  match st.client with
  | some c => Except.ok (c, st, false)
  | none =>
      if keyMissing st.apiKey then Except.error ()
      else
        Except.ok (st.nextClientId,
          { st with client := some st.nextClientId,
                    nextClientId := st.nextClientId + 1 }, true)

/-- A terminal failure of `generate_answer`: the `ValueError` raised by
`_get_client`, or a backend exception (with its `"429" in str(e)` flag)
re-raised by the retry loop. -/
inductive GenFail where
  | config
  | llm (has429 : Bool) (msg : String)
deriving DecidableEq

/-- Everything observable about one `generate_answer` call: its result,
the generator state afterwards, the prompt built by `_build_prompt`
(`none` when the call failed before reaching it), the number of backend
calls, the back-off sleeps, and whether a new client was constructed. -/
structure GenOutcome where
  result : Except GenFail String
  state : GenState
  promptBuilt : Option String
  attempts : Nat
  sleeps : List Nat
  clientCreated : Bool

/-- `generate_answer` from `generator.py`: fetch the client
(`_get_client()`), build the prompt, then run the retry loop with
`max_retries = 3`. -/
def generate_answer (question : String) (chunks : List PromptChunk)
    (backend : Nat → LLMResult) (st : GenState) : GenOutcome :=
  match getClient st with
  | .error _ =>
      { result := Except.error GenFail.config, state := st, promptBuilt := none,
        attempts := 0, sleeps := [], clientCreated := false }
  | .ok (_, st2, created) =>
      let prompt := build_prompt question chunks
      let r := retryLoop backend 3 0
      { result :=
          match r.1 with
          | .ok t => Except.ok t
          | .error e => Except.error (GenFail.llm e.1 e.2),
        state := st2, promptBuilt := some prompt,
        attempts := r.2.2, sleeps := r.2.1, clientCreated := created }

/-- The dict produced by `retrieve` always carries all four keys, so
passing it to `_build_prompt` yields a chunk with every field present. -/
def RetrievedChunk.toPromptChunk (c : RetrievedChunk) : PromptChunk :=
  { page := some c.page, filename := some c.filename, text := some c.text }

/-- `ask` from `pipeline.py`: retrieve, then generate; the answer and
the exact retrieved sources are both returned.  The Endee query response
and the LLM backend enter as black-box parameters. -/
def ask (question : String) (queryResults : List QueryItem)
    (backend : Nat → LLMResult) (mst : ModelState) (gst : GenState) :
    GenOutcome × List RetrievedChunk × ModelState :=
  let r := retrieve question queryResults mst
  let out := generate_answer question (r.1.map RetrievedChunk.toPromptChunk) backend gst
  (out, r.1, r.2)

/-! ## Theorems -/

theorem sliceLoop_eq (l : List α) (size stride : Nat) (hs : 0 < stride) :
    ∀ fuel start, l.length - start ≤ fuel →
      sliceLoop l size stride fuel start =
        (List.range ((l.length - start + stride - 1) / stride)).map
          (fun k => (l.drop (start + k * stride)).take size) := by
  intro fuel
  induction fuel with
  | zero =>
      intro start h
      have h0 : l.length - start = 0 := by omega
      rw [h0]
      have hz : (0 + stride - 1) / stride = 0 := Nat.div_eq_of_lt (by omega)
      rw [hz]
      rfl
  | succ f ih =>
      intro start h
      by_cases hg : start < l.length
      · have hrec := ih (start + stride) (by omega)
        have hd1 : 1 ≤ l.length - start := by omega
        have hn : (l.length - start + stride - 1) / stride
            = (l.length - (start + stride) + stride - 1) / stride + 1 := by
          have e1 : l.length - start + stride - 1 = (l.length - start - 1) + stride := by
            omega
          rw [e1, Nat.add_div_right _ hs]
          by_cases hds : l.length - start ≤ stride
          · have e2 : l.length - (start + stride) = 0 := by omega
            rw [e2, Nat.div_eq_of_lt (by omega), Nat.div_eq_of_lt (by omega)]
          · have e3 : l.length - (start + stride) + stride - 1 = l.length - start - 1 := by
              omega
            rw [e3]
        simp only [sliceLoop, hg, if_true]
        rw [hrec, hn, List.range_succ_eq_map, List.map_cons, List.map_map]
        congr 1
        · simp
        · refine List.map_congr_left ?_
          intro k hk
          have e : start + stride + k * stride = start + (k + 1) * stride := by ring
          simp only [Function.comp_apply, e]
      · have h0 : l.length - start = 0 := by omega
        have hz : (l.length - start + stride - 1) / stride = 0 := by
          rw [h0]; exact Nat.div_eq_of_lt (by omega)
        simp [sliceLoop, hg, hz]

theorem windows_eq (l : List α) (size stride : Nat) (hs : 0 < stride) :
    windows l size stride =
      (List.range ((l.length + stride - 1) / stride)).map
        (fun k => (l.drop (k * stride)).take size) := by
  have h := sliceLoop_eq l size stride hs l.length 0 (by omega)
  simpa [windows] using h

theorem windows_length (l : List α) (size stride : Nat) (hs : 0 < stride) :
    (windows l size stride).length = (l.length + stride - 1) / stride := by
  rw [windows_eq l size stride hs]
  simp

theorem sliceLoop_join (l : List α) (s : Nat) (hs : 0 < s) :
    ∀ fuel start, l.length - start ≤ fuel →
      (sliceLoop l s s fuel start).flatten = l.drop start := by
  intro fuel
  induction fuel with
  | zero =>
      intro start h
      have hnil : l.drop start = [] := List.drop_eq_nil_of_le (by omega)
      simp [sliceLoop, hnil]
  | succ f ih =>
      intro start h
      by_cases hg : start < l.length
      · have hrec := ih (start + s) (by omega)
        have e : (l.drop start).drop s = l.drop (start + s) := by
          rw [List.drop_drop, Nat.add_comm]
        simp only [sliceLoop, hg, if_true, List.flatten_cons]
        rw [hrec, ← e, List.take_append_drop]
      · have hnil : l.drop start = [] := List.drop_eq_nil_of_le (by omega)
        simp [sliceLoop, hg, hnil]

/-- Arithmetic helper: with `n = ceil(L / s)` windows of stride `s`,
the last window start `(n - 1) * s` plus one stride still reaches `L`. -/
theorem ceil_pred_mul_add (L s : Nat) (hs : 0 < s) (hL : 0 < L) :
    L ≤ ((L + s - 1) / s - 1) * s + s := by
  have hn1 : 1 ≤ (L + s - 1) / s := by
    rw [Nat.le_div_iff_mul_le hs]
    omega
  obtain ⟨m, hm⟩ : ∃ m, (L + s - 1) / s = m + 1 := ⟨(L + s - 1) / s - 1, by omega⟩
  have hdm : s * ((L + s - 1) / s) + (L + s - 1) % s = L + s - 1 :=
    Nat.div_add_mod _ _
  have hmod : (L + s - 1) % s < s := Nat.mod_lt _ hs
  rw [hm] at hdm ⊢
  rw [Nat.mul_succ] at hdm
  simp only [Nat.add_sub_cancel]
  rw [Nat.mul_comm m s]
  generalize hA : s * m = A at hdm ⊢
  omega

/-- C1 (amended): for a page text of length `L > 0` and parameters with
`overlap < chunk_size` (stride `s = chunk_size - overlap`), `chunk_text`
emits exactly `ceil(L / s)` chunks for that page, the first chunk is the
window starting at offset 0, and the last window's end offset
`(count - 1) * s + chunk_size` is at least `L`.  The count claimed in
the specification, `ceil(max(L - overlap, 1) / s)`, is refuted at a
concrete input by `chunk_text_claimed_count_cex`. -/
theorem chunk_text_count_amended (text : List Char) (pg cs ov : Nat)
    (hov : ov < cs) (hL : 0 < text.length) :
    (chunkPage text pg cs ov).length = (text.length + (cs - ov) - 1) / (cs - ov) ∧
    (chunkPage text pg cs ov).head? = some { text := text.take cs, page := pg } ∧
    text.length ≤ ((chunkPage text pg cs ov).length - 1) * (cs - ov) + cs ∧
    chunk_text [{ page := pg, text := text }] cs ov = chunkPage text pg cs ov := by
  have hs : 0 < cs - ov := by omega
  have hlen : (chunkPage text pg cs ov).length
      = (text.length + (cs - ov) - 1) / (cs - ov) := by
    simp [chunkPage, windows_length text cs (cs - ov) hs]
  have hn1 : 1 ≤ (text.length + (cs - ov) - 1) / (cs - ov) := by
    rw [Nat.le_div_iff_mul_le hs]
    omega
  refine ⟨hlen, ?_, ?_, ?_⟩
  · rw [chunkPage, windows_eq text cs (cs - ov) hs]
    obtain ⟨m, hm⟩ : ∃ m, (text.length + (cs - ov) - 1) / (cs - ov) = m + 1 :=
      ⟨(text.length + (cs - ov) - 1) / (cs - ov) - 1, by omega⟩
    rw [hm, List.range_succ_eq_map]
    simp
  · rw [hlen]
    calc text.length
        ≤ ((text.length + (cs - ov) - 1) / (cs - ov) - 1) * (cs - ov) + (cs - ov) :=
          ceil_pred_mul_add text.length (cs - ov) hs hL
      _ ≤ ((text.length + (cs - ov) - 1) / (cs - ov) - 1) * (cs - ov) + cs :=
          Nat.add_le_add_left (Nat.sub_le cs ov) _
  · simp [chunk_text]

/-- Witness for C1 (amended) at a 12-character page with window 10 and
overlap 5: the code emits `ceil(12 / 5) = 3` chunks. -/
theorem chunk_text_count_amended_witness :
    (chunkPage (List.replicate 12 'a') 1 10 5).length = 3 := by
  have h := (chunk_text_count_amended (List.replicate 12 'a') 1 10 5
    (by decide) (by decide)).1
  simpa using h

/-- C1 as stated is false at a concrete input: for a 12-character page
with window 10 and overlap 5 the claimed count
`ceil(max(12 - 5, 1) / 5) = 2` differs from the 3 chunks the code emits
(window starts 0, 5, 10). -/
theorem chunk_text_claimed_count_cex :
    (chunk_text [{ page := 1, text := List.replicate 12 'a' }] 10 5).length ≠
      (max (12 - 5) 1 + (10 - 5) - 1) / (10 - 5) := by
  decide

/-- C2: with `overlap >= chunk_size` the `while` loop of `chunk_text`
makes no progress — after any number `n` of iterations the offset
`start` is still at most 0, so the guard `start < len(text)` of a
non-empty page never becomes false.  The loop therefore never exits;
since its body contains no `raise`, `chunk_text` raises no
configuration error (contradicting the claim) and never returns. -/
theorem chunk_text_nonpositive_stride_loops (cs ov L : Int) (n : Nat)
    (hov : cs ≤ ov) (hL : 0 < L) :
    (chunkStep cs ov)^[n] 0 ≤ 0 ∧ (chunkStep cs ov)^[n] 0 < L := by
  have key : (chunkStep cs ov)^[n] 0 ≤ 0 := by
    induction n with
    | zero => simp
    | succ m ih =>
        rw [Function.iterate_succ_apply']
        show (chunkStep cs ov)^[m] 0 + (cs - ov) ≤ 0
        omega
  exact ⟨key, lt_of_le_of_lt key hL⟩

/-- Witness for C2 at the failing input `chunk_size = 500`,
`overlap = 500`, one-character page: even after 9 iterations the loop
guard is still true. -/
theorem chunk_text_nonpositive_stride_loops_witness :
    (chunkStep 500 500)^[9] 0 ≤ 0 ∧ (chunkStep 500 500)^[9] 0 < 1 :=
  chunk_text_nonpositive_stride_loops 500 500 1 9 (by decide) (by decide)

/-- C3 is false on the code: `ingestor.py` and `retriever.py` each hold
their own module-level `_model` global, so in a fresh process an
ingestion followed by a retrieval constructs two distinct
`SentenceTransformer` instances (instance ids 0 and 1, two
constructions), not one shared process-wide handle. -/
theorem separate_model_handles :
    (retrieverGetModel
        (ingestorGetModel
          { ingestorModel := none, retrieverModel := none, nextModelId := 0 }).2).1 ≠
      (ingestorGetModel
        { ingestorModel := none, retrieverModel := none, nextModelId := 0 }).1 ∧
    (retrieverGetModel
        (ingestorGetModel
          { ingestorModel := none, retrieverModel := none, nextModelId := 0 }).2).2.nextModelId
      = 2 := by
  decide

set_option maxRecDepth 100000 in
/-- C5: the upsert loop of `ingest_pdf` splits the prepared records into
consecutive batches of at most `BATCH_SIZE = 500`: concatenating the
batches in order restores the record list (so every record lands in
exactly one batch), the number of `index.upsert` calls is
`ceil(n / 500)`, every batch before the last has size exactly 500, and
1200 records yield exactly 3 calls of sizes 500, 500, 200. -/
theorem upsert_batching (l : List α) :
    (upsertBatches l).flatten = l ∧
    (upsertBatches l).length = (l.length + BATCH_SIZE - 1) / BATCH_SIZE ∧
    (∀ b, b ∈ upsertBatches l → b.length ≤ BATCH_SIZE) ∧
    (∀ i b, i + 1 < (upsertBatches l).length →
      (upsertBatches l).get? i = some b → b.length = BATCH_SIZE) ∧
    (upsertBatches (List.range 1200)).map List.length = [500, 500, 200] := by
  have h500 : (0:Nat) < BATCH_SIZE := by decide
  have hlen : (upsertBatches l).length = (l.length + BATCH_SIZE - 1) / BATCH_SIZE :=
    windows_length l BATCH_SIZE BATCH_SIZE h500
  refine ⟨?_, hlen, ?_, ?_, ?_⟩
  · have h := sliceLoop_join l BATCH_SIZE h500 l.length 0 (by omega)
    simpa [upsertBatches, windows] using h
  · intro b hb
    rw [upsertBatches, windows_eq l BATCH_SIZE BATCH_SIZE h500] at hb
    simp only [List.mem_map, List.mem_range] at hb
    obtain ⟨k, hk, rfl⟩ := hb
    calc ((l.drop (k * BATCH_SIZE)).take BATCH_SIZE).length
        = min BATCH_SIZE (l.drop (k * BATCH_SIZE)).length := List.length_take _ _
      _ ≤ BATCH_SIZE := min_le_left _ _
  · intro i b hi hb
    rw [hlen] at hi
    rw [upsertBatches, windows_eq l BATCH_SIZE BATCH_SIZE h500] at hb
    rw [List.get?_map, List.get?_range (by omega)] at hb
    simp only [Option.map_some'] at hb
    obtain rfl : ((l.drop (i * BATCH_SIZE)).take BATCH_SIZE) = b := by
      exact Option.some.inj hb
    rw [List.length_take, List.length_drop]
    simp only [BATCH_SIZE] at hi ⊢
    omega
  · rfl

set_option maxRecDepth 100000 in
/-- Witness for C5 on 600 concrete records: 2 calls, the first full at
500 records, and concatenation restores the input. -/
theorem upsert_batching_witness :
    (upsertBatches (List.range 600)).flatten = List.range 600 ∧
    (List.range 500).length ≤ BATCH_SIZE ∧
    (List.range 500).length = BATCH_SIZE := by
  refine ⟨(upsert_batching (List.range 600)).1, ?_, ?_⟩
  · exact (upsert_batching (List.range 600)).2.2.1 (List.range 500) (by decide)
  · exact (upsert_batching (List.range 600)).2.2.2.1 0 (List.range 500)
      (by decide) (by decide)

/-- C6: `ingest_pdf` returns 0 and performs no embedding call, no index
creation and no upsert call when extraction yields an empty page list,
or when chunking yields zero chunks. -/
theorem ingest_pdf_empty (pages : List Page) (fn : String) :
    (pages = [] → ingest_pdf pages fn = (0, [])) ∧
    (chunk_text pages CHUNK_SIZE CHUNK_OVERLAP = [] → ingest_pdf pages fn = (0, [])) := by
  constructor
  · intro h
    simp [ingest_pdf, h]
  · intro h
    by_cases hp : pages = []
    · simp [ingest_pdf, hp]
    · simp [ingest_pdf, hp, h]

/-- Witness for C6: an empty page list, and a single page whose text is
empty (zero chunks), both ingest to 0 with no backend interaction. -/
theorem ingest_pdf_empty_witness :
    ingest_pdf [] "doc.pdf" = (0, []) ∧
    ingest_pdf [{ page := 1, text := [] }] "doc.pdf" = (0, []) :=
  ⟨(ingest_pdf_empty [] "doc.pdf").1 rfl,
   (ingest_pdf_empty [{ page := 1, text := [] }] "doc.pdf").2 (by decide)⟩

theorem generate_answer_cached (q : String) (chs : List PromptChunk)
    (backend : Nat → LLMResult) (st : GenState) (c : Nat) (hc : st.client = some c) :
    (generate_answer q chs backend st).clientCreated = false ∧
    (generate_answer q chs backend st).state = st := by
  have hgc : getClient st = Except.ok (c, st, false) := by
    simp [getClient, hc]
  constructor <;> simp [generate_answer, hgc]

theorem retryLoop_ok (backend : Nat → LLMResult) (mr attempt : Nat) (a : String)
    (h : backend attempt = .ok a) :
    retryLoop backend mr attempt = (Except.ok a, [], 1) := by
  conv_lhs => rw [retryLoop.eq_def]
  rw [h]

theorem retryLoop_err_retry (backend : Nat → LLMResult) (mr attempt : Nat) (m : String)
    (h : backend attempt = .err true m) (hlt : attempt < mr - 1) :
    retryLoop backend mr attempt =
      ((retryLoop backend mr (attempt + 1)).1,
        20 * (attempt + 1) :: (retryLoop backend mr (attempt + 1)).2.1,
        (retryLoop backend mr (attempt + 1)).2.2 + 1) := by
  conv_lhs => rw [retryLoop.eq_def]
  rw [h]
  simp [hlt]

theorem retryLoop_err_stop (backend : Nat → LLMResult) (mr attempt : Nat)
    (h429 : Bool) (m : String) (h : backend attempt = .err h429 m)
    (hstop : ¬(h429 = true ∧ attempt < mr - 1)) :
    retryLoop backend mr attempt = (Except.error (h429, m), [], 1) := by
  conv_lhs => rw [retryLoop.eq_def]
  rw [h]
  simp only [dif_neg hstop]

/-- C4: `generate_answer` retries only on a rate-limit (`"429"`) signal,
with at most 3 backend attempts and a sleep of `20 * (attempt + 1)`
seconds after each rate-limited non-final attempt: a backend that
rate-limits twice then succeeds yields the success of the 3rd attempt
after sleeping 20 then 40 seconds; a backend that always rate-limits
re-raises after exactly 3 attempts; a non-rate-limit error propagates
immediately after 1 attempt with no sleep and no fallback answer. -/
theorem generate_answer_retry (q : String) (chs : List PromptChunk)
    (backend : Nat → LLMResult) (st : GenState) (c : Nat) (hc : st.client = some c) :
    (∀ m0 m1 a, backend 0 = .err true m0 → backend 1 = .err true m1 →
      backend 2 = .ok a →
      (generate_answer q chs backend st).result = Except.ok a ∧
      (generate_answer q chs backend st).sleeps = [20, 40] ∧
      (generate_answer q chs backend st).attempts = 3) ∧
    (∀ msgs : Nat → String, (∀ i, backend i = .err true (msgs i)) →
      (generate_answer q chs backend st).result
          = Except.error (GenFail.llm true (msgs 2)) ∧
      (generate_answer q chs backend st).sleeps = [20, 40] ∧
      (generate_answer q chs backend st).attempts = 3) ∧
    (∀ m0, backend 0 = .err false m0 →
      (generate_answer q chs backend st).result
          = Except.error (GenFail.llm false m0) ∧
      (generate_answer q chs backend st).sleeps = [] ∧
      (generate_answer q chs backend st).attempts = 1) := by
  have hgc : getClient st = Except.ok (c, st, false) := by
    simp [getClient, hc]
  refine ⟨?_, ?_, ?_⟩
  · intro m0 m1 a h0 h1 h2
    have hr2 := retryLoop_ok backend 3 2 a h2
    have hr1 := retryLoop_err_retry backend 3 1 m1 h1 (by omega)
    rw [hr2] at hr1
    simp only [] at hr1
    have hr0 := retryLoop_err_retry backend 3 0 m0 h0 (by omega)
    rw [hr1] at hr0
    refine ⟨?_, ?_, ?_⟩ <;> simp [generate_answer, hgc, hr0]
  · intro msgs hall
    have hr2 := retryLoop_err_stop backend 3 2 true (msgs 2) (hall 2) (by omega)
    have hr1 := retryLoop_err_retry backend 3 1 (msgs 1) (hall 1) (by omega)
    rw [hr2] at hr1
    have hr0 := retryLoop_err_retry backend 3 0 (msgs 0) (hall 0) (by omega)
    rw [hr1] at hr0
    refine ⟨?_, ?_, ?_⟩ <;> simp [generate_answer, hgc, hr0]
  · intro m0 h0
    have hr0 := retryLoop_err_stop backend 3 0 false m0 h0 (by simp)
    refine ⟨?_, ?_, ?_⟩ <;> simp [generate_answer, hgc, hr0]

/-- Witness for C4: three concrete backends — rate-limit twice then
succeed, always rate-limit, and fail with a non-rate-limit error. -/
theorem generate_answer_retry_witness :
    (generate_answer "q" []
        (fun i => match i with
          | 0 => LLMResult.err true "429 quota"
          | 1 => LLMResult.err true "429 quota"
          | _ => LLMResult.ok "done")
        { apiKey := some "k", client := some 0, nextClientId := 1 }).result
      = Except.ok "done" ∧
    (generate_answer "q" [] (fun _ => LLMResult.err true "429 quota")
        { apiKey := some "k", client := some 0, nextClientId := 1 }).attempts = 3 ∧
    (generate_answer "q" [] (fun _ => LLMResult.err false "boom")
        { apiKey := some "k", client := some 0, nextClientId := 1 }).sleeps = [] := by
  refine ⟨?_, ?_, ?_⟩
  · exact ((generate_answer_retry "q" []
      (fun i => match i with
        | 0 => LLMResult.err true "429 quota"
        | 1 => LLMResult.err true "429 quota"
        | _ => LLMResult.ok "done")
      { apiKey := some "k", client := some 0, nextClientId := 1 } 0 rfl).1
      "429 quota" "429 quota" "done" rfl rfl rfl).1
  · exact ((generate_answer_retry "q" [] (fun _ => LLMResult.err true "429 quota")
      { apiKey := some "k", client := some 0, nextClientId := 1 } 0 rfl).2.1
      (fun _ => "429 quota") (fun _ => rfl)).2.2
  · exact ((generate_answer_retry "q" [] (fun _ => LLMResult.err false "boom")
      { apiKey := some "k", client := some 0, nextClientId := 1 } 0 rfl).2.2
      "boom" rfl).2.1

theorem contextParts_enumFrom (cs : List PromptChunk) :
    ∀ n, contextParts n cs = (List.enumFrom n cs).map
      (fun p => "[Chunk " ++ toString p.1 ++ " | Page " ++ pageField p.2.page ++
        " | File: " ++ p.2.filename.getD "?" ++ "]\n" ++ p.2.text.getD "") := by
  induction cs with
  | nil => intro n; rfl
  | cons c rest ih =>
      intro n
      simp only [contextParts, List.enumFrom, List.map_cons]
      rw [ih (n + 1)]

/-- C7: `_build_prompt` numbers the chunks starting at 1 in input order,
renders each as a `[Chunk i | Page p | File: f]` header line followed by
the chunk text, joins the blocks with a blank line, opens with the
explicit grounding instruction (`groundingInstruction`: answer only from
the supplied context and state when the answer is not present), and
places the entire context block before the question. -/
theorem build_prompt_format (q : String) (cs : List PromptChunk) :
    build_prompt q cs =
      groundingInstruction ++ "\n\nContext:\n" ++
        String.intercalate "\n\n"
          ((List.enumFrom 1 cs).map
            (fun p => "[Chunk " ++ toString p.1 ++ " | Page " ++ pageField p.2.page ++
              " | File: " ++ p.2.filename.getD "?" ++ "]\n" ++ p.2.text.getD "")) ++
        "\n\nQuestion: " ++ q ++ "\n\nAnswer:" := by
  simp only [build_prompt]
  rw [contextParts_enumFrom cs 1]

/-- C8: when the module-level `_client` is unset and `GEMINI_API_KEY` is
missing, empty, or the placeholder (exactly the cases of `keyMissing`),
`generate_answer` raises the configuration `ValueError` before building
any prompt and before any backend call; with a usable credential the
client is constructed once on first use and every later call reuses it
unchanged. -/
theorem generate_answer_client (q : String) (chs : List PromptChunk)
    (backend : Nat → LLMResult) (st : GenState) :
    (keyMissing st.apiKey = true ↔
      st.apiKey = none ∨ st.apiKey = some "" ∨ st.apiKey = some PLACEHOLDER_KEY) ∧
    (st.client = none → keyMissing st.apiKey = true →
      (generate_answer q chs backend st).result = Except.error GenFail.config ∧
      (generate_answer q chs backend st).promptBuilt = none ∧
      (generate_answer q chs backend st).attempts = 0) ∧
    (st.client = none → keyMissing st.apiKey = false →
      (generate_answer q chs backend st).clientCreated = true ∧
      (generate_answer q chs backend st).state.client = some st.nextClientId ∧
      ∀ q2 chs2 b2,
        (generate_answer q2 chs2 b2
          (generate_answer q chs backend st).state).clientCreated = false ∧
        (generate_answer q2 chs2 b2 (generate_answer q chs backend st).state).state =
          (generate_answer q chs backend st).state) := by
  refine ⟨?_, ?_, ?_⟩
  · cases h : st.apiKey with
    | none => simp [keyMissing]
    | some k => simp [keyMissing]
  · intro h1 h2
    have hgc : getClient st = Except.error () := by
      simp [getClient, h1, h2]
    refine ⟨?_, ?_, ?_⟩ <;> simp [generate_answer, hgc]
  · intro h1 h2
    have hgc : getClient st = Except.ok (st.nextClientId,
        { st with client := some st.nextClientId,
                  nextClientId := st.nextClientId + 1 }, true) := by
      simp [getClient, h1, h2]
    have hstate : (generate_answer q chs backend st).state =
        { st with client := some st.nextClientId,
                  nextClientId := st.nextClientId + 1 } := by
      simp [generate_answer, hgc]
    refine ⟨by simp [generate_answer, hgc], by rw [hstate], ?_⟩
    intro q2 chs2 b2
    exact generate_answer_cached q2 chs2 b2 _ st.nextClientId (by rw [hstate])

/-- Witness for C8: the placeholder credential fails with the
configuration error; a real credential constructs and caches client 5. -/
theorem generate_answer_client_witness :
    (generate_answer "q" [] (fun _ => LLMResult.ok "a")
        { apiKey := some PLACEHOLDER_KEY, client := none, nextClientId := 0 }).result
      = Except.error GenFail.config ∧
    (generate_answer "q" [] (fun _ => LLMResult.ok "a")
        { apiKey := some "k", client := none, nextClientId := 5 }).state.client
      = some 5 := by
  constructor
  · exact ((generate_answer_client "q" [] (fun _ => LLMResult.ok "a")
      { apiKey := some PLACEHOLDER_KEY, client := none, nextClientId := 0 }).2.1
      rfl (by decide)).1
  · exact ((generate_answer_client "q" [] (fun _ => LLMResult.ok "a")
      { apiKey := some "k", client := none, nextClientId := 5 }).2.2
      rfl (by decide)).2.1

/-- C9: `retrieve` formats one output dict per query response item in
response order; an absent `meta` dict or absent `text`, `page`,
`filename`, `similarity` entries are replaced by `""`, `0`, `""`, `0.0`
while present values pass through unchanged, so a partially populated
record can never raise (every access in the model is a total
`.getD`). -/
theorem retrieve_defaults (q : String) (results : List QueryItem) (st : ModelState) :
    (retrieve q results st).1 = formatResults results ∧
    (formatResults results).length = results.length ∧
    ∀ i item, results.get? i = some item →
      ∃ out, (formatResults results).get? i = some out ∧
        (item.meta = none → out.text = "" ∧ out.page = 0 ∧ out.filename = "") ∧
        (∀ m, item.meta = some m →
          (m.text = none → out.text = "") ∧
          (∀ t, m.text = some t → out.text = t) ∧
          (m.page = none → out.page = 0) ∧
          (∀ p, m.page = some p → out.page = p) ∧
          (m.filename = none → out.filename = "") ∧
          (∀ f, m.filename = some f → out.filename = f)) ∧
        (item.similarity = none → out.score = 0) ∧
        (∀ s, item.similarity = some s → out.score = s) := by
  refine ⟨rfl, by simp [formatResults], ?_⟩
  intro i item hi
  refine ⟨formatItem item, ?_, ?_, ?_, ?_, ?_⟩
  · show (results.map formatItem).get? i = some (formatItem item)
    rw [List.get?_map, hi]
    rfl
  · intro h
    simp [formatItem, h, emptyMeta]
  · intro m hm
    refine ⟨?_, ?_, ?_, ?_, ?_, ?_⟩ <;> intro x
    · simp [formatItem, hm, x]
    · intro h; simp [formatItem, hm, h]
    · simp [formatItem, hm, x]
    · intro h; simp [formatItem, hm, h]
    · simp [formatItem, hm, x]
    · intro h; simp [formatItem, hm, h]
  · intro h
    simp [formatItem, h]
  · intro s h
    simp [formatItem, h]

/-- Witness for C9: a response item with no `meta` and no `similarity`
formats to all defaults without raising. -/
theorem retrieve_defaults_witness :
    (retrieve "q" [{ meta := none, similarity := none }]
        { ingestorModel := none, retrieverModel := none, nextModelId := 0 }).1
      = formatResults [{ meta := none, similarity := none }] ∧
    ∃ out, (formatResults [{ meta := none, similarity := none }]).get? 0 = some out ∧
      out.text = "" ∧ out.score = 0 := by
  have h := retrieve_defaults "q" [{ meta := none, similarity := none }]
    { ingestorModel := none, retrieverModel := none, nextModelId := 0 }
  refine ⟨h.1, ?_⟩
  obtain ⟨out, h1, h2, h3, h4, h5⟩ := h.2.2 0 { meta := none, similarity := none } rfl
  exact ⟨out, h1, (h2 rfl).1, h4 rfl⟩

/-- C10: on an empty chunk list `_build_prompt` still returns the
well-formed prompt whose context block is the empty string, with the
grounding instruction and the question present; and `ask` accepts a
zero-result retrieval without raising: with a valid client and a
successful backend the pipeline returns the answer for the empty-context
prompt together with empty sources. -/
theorem ask_empty_index (q : String) :
    build_prompt q [] =
      groundingInstruction ++ "\n\nContext:\n" ++ String.intercalate "\n\n" [] ++
        "\n\nQuestion: " ++ q ++ "\n\nAnswer:" ∧
    String.intercalate "\n\n" ([] : List String) = "" ∧
    ∀ (backend : Nat → LLMResult) (mst : ModelState) (gst : GenState) (c : Nat)
      (a : String), gst.client = some c → backend 0 = LLMResult.ok a →
      (ask q [] backend mst gst).1.result = Except.ok a ∧
      (ask q [] backend mst gst).1.promptBuilt = some (build_prompt q []) ∧
      (ask q [] backend mst gst).2.1 = [] := by
  refine ⟨rfl, rfl, ?_⟩
  intro backend mst gst c a hc hb
  have hgc : getClient gst = Except.ok (c, gst, false) := by
    simp [getClient, hc]
  have hr := retryLoop_ok backend 3 0 a hb
  refine ⟨?_, ?_, ?_⟩ <;>
    simp [ask, retrieve, formatResults, generate_answer, hgc, hr]

/-- Witness for C10: a question against an empty index with a working
client and backend produces the backend answer. -/
theorem ask_empty_index_witness :
    (ask "q" [] (fun _ => LLMResult.ok "ans")
        { ingestorModel := none, retrieverModel := none, nextModelId := 0 }
        { apiKey := some "k", client := some 0, nextClientId := 1 }).1.result
      = Except.ok "ans" :=
  ((ask_empty_index "q").2.2 (fun _ => LLMResult.ok "ans")
    { ingestorModel := none, retrieverModel := none, nextModelId := 0 }
    { apiKey := some "k", client := some 0, nextClientId := 1 } 0 "ans" rfl rfl).1

end EndeeRag
